import Mathlib

/-
Verification of the MMU maintenance module (src/src/mmu.rs) of
ruspiro-loader: a shallow embedding of the translation-table builder
`setup_page_tables`, the register sequencer `initialize_mmu` /
`disable_mmu`, and the static `MMU_CFG` table region, together with
proofs of the specification's claims about them.

Machine integers are modelled as ℕ; the 64-bit descriptors built by the
source only ever combine disjoint bit ranges, so no wrap-around occurs
(the descriptor values stay below 2^64, which the proofs make explicit
through the hypotheses on the table base address).
-/

namespace Mmu

/-- Translation table region of the static `MMU_CFG` value: a level-0
table of 512 descriptors (1GB each) and a level-1 table of 513
descriptors (2MB each), modelled as functions from the entry index to
the 64-bit descriptor value stored there. -/
@[ext]
structure MmuConfig where
  ttlb_lvl0 : ℕ → ℕ
  ttlb_lvl1 : ℕ → ℕ

/-- The static initializer of `MMU_CFG`: both tables are zero-filled. -/
def MMU_CFG_init : MmuConfig :=
  { ttlb_lvl0 := fun _ => 0, ttlb_lvl1 := fun _ => 0 }

/-- Byte address of the level-0 entry `j` of `MMU_CFG`, for a region
based at `base` (the struct is `#[repr(align(4096))]`, entries are
8 bytes). -/
def ttlb_lvl0_addr (base j : ℕ) : ℕ := base + 8 * j

/-- Byte address of the level-1 entry `j` of `MMU_CFG`: the level-1
array starts right after the 512 × 8 bytes of the level-0 array. -/
def ttlb_lvl1_addr (base j : ℕ) : ℕ := base + 8 * 512 + 8 * j

/-- Memory attribute profiles named by the source when it programs
`mair_el2` (the raw encodings live in the external register crate). -/
inductive MairAttr where
  | NGNRNE
  | NGNRE
  | GRE
  | NC
  | NORM
deriving DecidableEq

/-- Value written to `mair_el2`: one attribute profile per index 0..4. -/
structure MairVal where
  MAIR0 : MairAttr
  MAIR1 : MairAttr
  MAIR2 : MairAttr
  MAIR3 : MairAttr
  MAIR4 : MairAttr
deriving DecidableEq

/-- The `mair_el2` value composed in `initialize_mmu`. -/
def mair_write_value : MairVal :=
  { MAIR0 := MairAttr.NGNRNE
    MAIR1 := MairAttr.NGNRE
    MAIR2 := MairAttr.GRE
    MAIR3 := MairAttr.NC
    MAIR4 := MairAttr.NORM }

/-- Field values of `tcr_el2` named by the source (each field is written
with exactly one enumerated value, kept as a one-constructor type). -/
inductive TcrIrgn0 where
  | NM_IWB_RA_WA
deriving DecidableEq

inductive TcrOrgn0 where
  | NM_OWB_RA_WA
deriving DecidableEq

inductive TcrSh0 where
  | IS
deriving DecidableEq

inductive TcrTg0 where
  | _4KB
deriving DecidableEq

inductive TcrPs where
  | _32BITS
deriving DecidableEq

inductive TcrTbi where
  | IGNORE
deriving DecidableEq

/-- Value written to `tcr_el2`. -/
structure TcrVal where
  T0SZ : ℕ
  IRGN0 : TcrIrgn0
  ORGN0 : TcrOrgn0
  SH0 : TcrSh0
  TG0 : TcrTg0
  PS : TcrPs
  TBI : TcrTbi
deriving DecidableEq

/-- The `tcr_el2` value composed in `initialize_mmu`. -/
def tcr_write_value : TcrVal :=
  { T0SZ := 25
    IRGN0 := TcrIrgn0.NM_IWB_RA_WA
    ORGN0 := TcrOrgn0.NM_OWB_RA_WA
    SH0 := TcrSh0.IS
    TG0 := TcrTg0._4KB
    PS := TcrPs._32BITS
    TBI := TcrTbi.IGNORE }

/-- Value written to `hcr_el2` (`DC::DISABLE | VM::DISABLE`). -/
structure HcrVal where
  DC : Bool
  VM : Bool
deriving DecidableEq

/-- The `hcr_el2` value composed in `initialize_mmu`. -/
def hcr_write_value : HcrVal := { DC := false, VM := false }

/-- Value written to `sctlr_el2`: the named single-bit fields the source
sets (M = MMU enable, A = alignment check, C = data cache, SA = stack
alignment check, I = instruction cache). -/
structure SctlrVal where
  M : Bool
  A : Bool
  C : Bool
  SA : Bool
  I : Bool
deriving DecidableEq

/-- The enabling `sctlr_el2` value at the end of `initialize_mmu`:
`M::ENABLE | A::DISABLE | C::ENABLE | SA::DISABLE | I::DISABLE`. -/
def sctlr_enable_value : SctlrVal :=
  { M := true, A := false, C := true, SA := false, I := false }

/-- The `sctlr_el2` value of `disable_mmu`:
`M::DISABLE | C::DISABLE | I::DISABLE` (the unnamed fields of a full
register write are composed as zero/disabled). -/
def sctlr_disable_value : SctlrVal :=
  { M := false, A := false, C := false, SA := false, I := false }

/-- The system-register file touched by the module. -/
structure Regs where
  sctlr_el2 : SctlrVal
  mair_el2 : MairVal
  ttbr0_el2 : ℕ
  tcr_el2 : TcrVal
  hcr_el2 : HcrVal
deriving DecidableEq

/-- Full modelled state: the static table region plus the registers. -/
structure Machine where
  cfg : MmuConfig
  regs : Regs

/-- `setup_page_tables` of src/src/mmu.rs, as a transformer of the table
region. `base` is the runtime address of the static `MMU_CFG`;
`level1_addr_1`/`level1_addr_2` are the addresses of `ttlb_lvl1[0]` and
`ttlb_lvl1[512]` exactly as the source takes them. Level-0 entries 0 and
1 get table descriptors `0x1 << 63 | addr | 0b11`; level-1 entries
0..504 get normal-memory block descriptors `(i * 0x20_0000) | 0x710 |
0b01` and entries 504..513 device-memory block descriptors
`(i * 0x20_0000) | 0x400 | 0b01`. All other entries are untouched. -/
def setup_page_tables (base : ℕ) (cfg : MmuConfig) : MmuConfig :=
  let level1_addr_1 := ttlb_lvl1_addr base 0
  let level1_addr_2 := ttlb_lvl1_addr base 512
  { ttlb_lvl0 := fun i =>
      if i = 0 then 0x1 <<< 63 ||| level1_addr_1 ||| 0b11
      else if i = 1 then 0x1 <<< 63 ||| level1_addr_2 ||| 0b11
      else cfg.ttlb_lvl0 i
    ttlb_lvl1 := fun i =>
      if i < 504 then (i * 0x200000) ||| 0x710 ||| 0b01
      else if i < 513 then (i * 0x200000) ||| 0x400 ||| 0b01
      else cfg.ttlb_lvl1 i }

/-- `disable_mmu` of src/src/mmu.rs as a state transformer: one full
write of `sctlr_el2` with M, C and I disabled (the nops and the
`dsb sy; isb` barrier do not change the modelled state). -/
def disable_mmu (m : Machine) : Machine :=
  { m with regs := { m.regs with sctlr_el2 := sctlr_disable_value } }

/-- `initialize_mmu(core)` of src/src/mmu.rs as a state transformer:
disable the MMU, build the tables when `core == 0`, then program
`mair_el2`, `ttbr0_el2` (with the address of `ttlb_lvl0[0]`, i.e. the
region base), `tcr_el2`, `hcr_el2` and finally the enabling
`sctlr_el2`. -/
def initialize_mmu (base core : ℕ) (m : Machine) : Machine :=
  let m1 := disable_mmu m
  let m2 :=
    if core = 0 then { m1 with cfg := setup_page_tables base m1.cfg } else m1
  { m2 with regs :=
      { m2.regs with
        mair_el2 := mair_write_value
        ttbr0_el2 := ttlb_lvl0_addr base 0
        tcr_el2 := tcr_write_value
        hcr_el2 := hcr_write_value
        sctlr_el2 := sctlr_enable_value } }

/-- Observable hardware events of the module: system-register writes,
`nop`, and the barrier / TLB instructions issued via inline assembly. -/
inductive Ev where
  | wSctlr (v : SctlrVal)
  | wMair (v : MairVal)
  | wTtbr0 (v : ℕ)
  | wTcr (v : TcrVal)
  | wHcr (v : HcrVal)
  | nop
  | dsb
  | isb
  | tlbi
deriving DecidableEq

/-- Event trace of `disable_mmu`: the single `sctlr_el2` write, two
nops, then `dsb sy` followed by `isb`. -/
def disable_mmu_trace : List Ev :=
  [Ev.wSctlr sctlr_disable_value, Ev.nop, Ev.nop, Ev.dsb, Ev.isb]

/-- Event trace of `setup_page_tables` (its closing
`dsb ishst; tlbi alle2is`; the table writes are memory stores, not
register writes). -/
def setup_page_tables_trace : List Ev :=
  [Ev.dsb, Ev.tlbi]

/-- Event trace of `initialize_mmu(core)`, in program order. -/
def initialize_mmu_trace (base core : ℕ) : List Ev :=
  disable_mmu_trace
    ++ (if core = 0 then setup_page_tables_trace else [])
    ++ [Ev.wMair mair_write_value, Ev.wTtbr0 (ttlb_lvl0_addr base 0),
        Ev.wTcr tcr_write_value, Ev.wHcr hcr_write_value,
        Ev.wSctlr sctlr_enable_value, Ev.nop, Ev.nop]

/-- An event is a `sctlr_el2` write that sets the translation-enable
bit M. -/
def isEnablingSctlrWrite : Ev → Bool
  | Ev.wSctlr v => v.M
  | _ => false

/-- An event is any `sctlr_el2` write. -/
def isSctlrWrite : Ev → Bool
  | Ev.wSctlr _ => true
  | _ => false

/-- An event is the `mair_el2` write. -/
def isMairWrite : Ev → Bool
  | Ev.wMair _ => true
  | _ => false

/-- An event is the `tcr_el2` write. -/
def isTcrWrite : Ev → Bool
  | Ev.wTcr _ => true
  | _ => false

/-- Low two type bits of a descriptor (0b11 = valid table at level 0,
0b01 = valid block at level 1). -/
def descType (d : ℕ) : ℕ := d % 4

/-- Access-flag bit (bit 10) of a block descriptor. -/
def accessFlag (d : ℕ) : ℕ := d / 2 ^ 10 % 2

/-- Shareability field (bits 9:8) of a block descriptor
(3 = inner-shareable, 0 = non-shareable). -/
def shareability (d : ℕ) : ℕ := d / 2 ^ 8 % 4

/-- Memory-attribute index field (bits 4:2) of a block descriptor,
an index into `mair_el2`. -/
def attrIndx (d : ℕ) : ℕ := d / 2 ^ 2 % 8

/-- Output address of a 2MB level-1 block descriptor (bits 47:21). -/
def blockAddr (d : ℕ) : ℕ := d / 2 ^ 21 % 2 ^ 27 * 2 ^ 21

/-- Next-level table address of a level-0 table descriptor
(bits 47:12, the table-pointer bits for the 4KB granule). -/
def tableAddr (d : ℕ) : ℕ := d / 2 ^ 12 % 2 ^ 36 * 2 ^ 12

/-- The table region as seen by the hardware walker: an 8-byte read at
`addr` hits `ttlb_lvl0` in the first 4096 bytes of the region and
`ttlb_lvl1` in the following 513 × 8 bytes; reads elsewhere return 0
(memory outside the region is never fetched by the walks proved here). -/
def memAt (base : ℕ) (cfg : MmuConfig) (addr : ℕ) : ℕ :=
  if base ≤ addr ∧ addr < base + 8 * 512 then
    cfg.ttlb_lvl0 ((addr - base) / 8)
  else if base + 8 * 512 ≤ addr ∧ addr < base + 8 * 512 + 8 * 513 then
    cfg.ttlb_lvl1 ((addr - (base + 8 * 512)) / 8)
  else 0

/-- Two-level translation-table walk for the 4KB granule, starting at
the level-0 table at `base` (the value programmed into `ttbr0_el2`):
fetch the level-0 descriptor for bits 38:30 of `va`; when it is a valid
table descriptor, fetch the level-1 descriptor for bits 29:21 from the
pointed-to table; when that is a valid 2MB block descriptor, the output
address is the block address plus bits 20:0 of `va`. Any other
descriptor type along the way yields no mapping. -/
def walk (base : ℕ) (cfg : MmuConfig) (va : ℕ) : Option ℕ :=
  let d0 := memAt base cfg (base + 8 * (va / 2 ^ 30 % 2 ^ 9))
  if descType d0 = 0b11 then
    let d1 := memAt base cfg (tableAddr d0 + 8 * (va / 2 ^ 21 % 2 ^ 9))
    if descType d1 = 0b01 then some (blockAddr d1 + va % 2 ^ 21)
    else none
  else none

/-- Bitwise-or of numbers with disjoint bit ranges is addition: `a` has
no bits below `k` and `b` no bits at or above `k`. -/
theorem lor_eq_add_of_lt (k : ℕ) :
    ∀ a b : ℕ, a % 2 ^ k = 0 → b < 2 ^ k → a ||| b = a + b := by
  induction k with
  | zero =>
    intro a b _ hb
    interval_cases b
    simp
  | succ k ih =>
    intro a b ha hb
    have hpow : (2 : ℕ) ^ (k + 1) = 2 * 2 ^ k := by ring
    rw [hpow] at ha hb
    obtain ⟨m, hm⟩ : 2 * 2 ^ k ∣ a := Nat.dvd_of_mod_eq_zero ha
    have h1 : a = 2 * (2 ^ k * m) := by rw [hm]; ring
    have ha2 : a % 2 = 0 := by
      rw [h1]
      exact Nat.mul_mod_right 2 _
    have hadiv : a / 2 = 2 ^ k * m := by
      rw [h1]
      exact Nat.mul_div_cancel_left _ (by norm_num)
    have ha' : a / 2 % 2 ^ k = 0 := by
      rw [hadiv]
      exact Nat.mul_mod_right _ _
    have hb' : b / 2 < 2 ^ k := by omega
    have hdiv : (a ||| b) / 2 = a / 2 + b / 2 := by
      rw [Nat.or_div_two]
      exact ih (a / 2) (b / 2) ha' hb'
    have hmod : (a ||| b) % 2 = b % 2 := by
      have h0 := Nat.testBit_lor a b 0
      rw [Bool.eq_iff_iff] at h0
      simp only [Nat.testBit_zero, Bool.or_eq_true, decide_eq_true_eq] at h0
      omega
    omega

/-- Value of the level-1 entries written by `setup_page_tables`: the
bitwise-or combinations collapse to sums because the block address has
no bits below 21 while both attribute constants fit in 21 bits. -/
theorem setup_lvl1_eval (base : ℕ) (cfg : MmuConfig) (j : ℕ) (hj : j < 513) :
    (setup_page_tables base cfg).ttlb_lvl1 j
      = j * 0x200000 + (if j < 504 then 0x711 else 0x401) := by
  have hmod : j * 0x200000 % 2 ^ 21 = 0 := by
    have : (0x200000 : ℕ) = 2 ^ 21 := by norm_num
    rw [this]
    exact Nat.mul_mod_left _ _
  unfold setup_page_tables
  simp only
  by_cases h : j < 504
  · rw [if_pos h, if_pos h]
    rw [lor_eq_add_of_lt 21 _ 0x710 hmod (by norm_num)]
    rw [lor_eq_add_of_lt 1 _ 0b01 (by omega) (by norm_num)]
  · rw [if_neg h, if_pos hj, if_neg h]
    rw [lor_eq_add_of_lt 21 _ 0x400 hmod (by norm_num)]
    rw [lor_eq_add_of_lt 1 _ 0b01 (by omega) (by norm_num)]

/-- Value of the two level-0 entries written by `setup_page_tables`,
for an aligned table region whose addresses fit in the 48-bit physical
address space. -/
theorem setup_lvl0_eval (base : ℕ) (cfg : MmuConfig)
    (hal : base % 4096 = 0) (hsz : base + 12288 < 2 ^ 48) (i : ℕ)
    (hi : i < 2) :
    (setup_page_tables base cfg).ttlb_lvl0 i
      = 2 ^ 63 + (base + 4096 + 4096 * i) + 3 := by
  have hs : (0x1 <<< 63 : ℕ) = 2 ^ 63 := by
    rw [Nat.shiftLeft_eq]
    norm_num
  have hstep : ∀ a : ℕ, a % 4 = 0 → a < 2 ^ 63 →
      0x1 <<< 63 ||| a ||| 0b11 = 2 ^ 63 + a + 3 := by
    intro a h4 hlt
    rw [hs]
    rw [lor_eq_add_of_lt 63 _ a (Nat.mod_self _) hlt]
    rw [lor_eq_add_of_lt 2 _ 0b11 (by omega) (by norm_num)]
  unfold setup_page_tables ttlb_lvl1_addr
  simp only
  interval_cases i
  · rw [if_pos rfl]
    rw [hstep _ (by omega) (by omega)]
  · rw [if_neg (by omega), if_pos rfl]
    rw [hstep _ (by omega) (by omega)]

/-- C2: after `setup_page_tables`, every level-1 entry with index below
504 decodes as a valid 2MB block descriptor (type bits 0b01) mapping the
output address `i * 0x20_0000`, with the access flag set, inner-shareable
shareability (0b11) and memory-attribute index 4, the index `mair_el2`
binds to the normal write-back profile. -/
theorem lvl1_normal_range (base : ℕ) (cfg : MmuConfig) (i : ℕ)
    (hi : i < 504) :
    blockAddr ((setup_page_tables base cfg).ttlb_lvl1 i) = i * 0x200000
    ∧ accessFlag ((setup_page_tables base cfg).ttlb_lvl1 i) = 1
    ∧ shareability ((setup_page_tables base cfg).ttlb_lvl1 i) = 0b11
    ∧ attrIndx ((setup_page_tables base cfg).ttlb_lvl1 i) = 4
    ∧ descType ((setup_page_tables base cfg).ttlb_lvl1 i) = 0b01
    ∧ mair_write_value.MAIR4 = MairAttr.NORM := by
  have h := setup_lvl1_eval base cfg i (by omega)
  rw [if_pos hi] at h
  rw [h]
  unfold blockAddr accessFlag shareability attrIndx descType
  refine ⟨by omega, by omega, by omega, by omega, by omega, rfl⟩

/-- Closed instance of `lvl1_normal_range` at index 7. -/
theorem lvl1_normal_range_witness :
    blockAddr ((setup_page_tables 65536 MMU_CFG_init).ttlb_lvl1 7)
        = 7 * 0x200000
    ∧ accessFlag ((setup_page_tables 65536 MMU_CFG_init).ttlb_lvl1 7) = 1
    ∧ shareability ((setup_page_tables 65536 MMU_CFG_init).ttlb_lvl1 7) = 0b11
    ∧ attrIndx ((setup_page_tables 65536 MMU_CFG_init).ttlb_lvl1 7) = 4
    ∧ descType ((setup_page_tables 65536 MMU_CFG_init).ttlb_lvl1 7) = 0b01
    ∧ mair_write_value.MAIR4 = MairAttr.NORM :=
  lvl1_normal_range 65536 MMU_CFG_init 7 (by norm_num)

/-- C3: after `setup_page_tables`, every level-1 entry with index in
[504, 513) decodes as a valid 2MB block descriptor (type bits 0b01)
mapping the output address `i * 0x20_0000`, with the access flag set,
non-shareable shareability (0) and memory-attribute index 0, the index
`mair_el2` binds to the device (nGnRnE) profile. -/
theorem lvl1_device_range (base : ℕ) (cfg : MmuConfig) (i : ℕ)
    (hlo : 504 ≤ i) (hhi : i < 513) :
    blockAddr ((setup_page_tables base cfg).ttlb_lvl1 i) = i * 0x200000
    ∧ attrIndx ((setup_page_tables base cfg).ttlb_lvl1 i) = 0
    ∧ shareability ((setup_page_tables base cfg).ttlb_lvl1 i) = 0
    ∧ accessFlag ((setup_page_tables base cfg).ttlb_lvl1 i) = 1
    ∧ descType ((setup_page_tables base cfg).ttlb_lvl1 i) = 0b01
    ∧ mair_write_value.MAIR0 = MairAttr.NGNRNE := by
  have h := setup_lvl1_eval base cfg i hhi
  rw [if_neg (by omega)] at h
  rw [h]
  unfold blockAddr accessFlag shareability attrIndx descType
  refine ⟨by omega, by omega, by omega, by omega, by omega, rfl⟩

/-- Closed instance of `lvl1_device_range` at index 512, the overflow
entry covering [0x4000_0000, 0x4020_0000). -/
theorem lvl1_device_range_witness :
    blockAddr ((setup_page_tables 65536 MMU_CFG_init).ttlb_lvl1 512)
        = 512 * 0x200000
    ∧ attrIndx ((setup_page_tables 65536 MMU_CFG_init).ttlb_lvl1 512) = 0
    ∧ shareability ((setup_page_tables 65536 MMU_CFG_init).ttlb_lvl1 512) = 0
    ∧ accessFlag ((setup_page_tables 65536 MMU_CFG_init).ttlb_lvl1 512) = 1
    ∧ descType ((setup_page_tables 65536 MMU_CFG_init).ttlb_lvl1 512) = 0b01
    ∧ mair_write_value.MAIR0 = MairAttr.NGNRNE :=
  lvl1_device_range 65536 MMU_CFG_init 512 (by norm_num) (by norm_num)

/-- C4: after `setup_page_tables`, the populated level-0 entries 0 and 1
are table descriptors (type bits 0b11, never the block type 0b01), and
the table-pointer bits 47:12 of entry 0 hold exactly the address of
`ttlb_lvl1[0]` while those of entry 1 hold exactly the address of
`ttlb_lvl1[512]`. -/
theorem lvl0_table_descriptors (base : ℕ) (cfg : MmuConfig)
    (hal : base % 4096 = 0) (hsz : base + 12288 < 2 ^ 48) :
    tableAddr ((setup_page_tables base cfg).ttlb_lvl0 0)
        = ttlb_lvl1_addr base 0
    ∧ descType ((setup_page_tables base cfg).ttlb_lvl0 0) = 0b11
    ∧ tableAddr ((setup_page_tables base cfg).ttlb_lvl0 1)
        = ttlb_lvl1_addr base 512
    ∧ descType ((setup_page_tables base cfg).ttlb_lvl0 1) = 0b11 := by
  have h0 := setup_lvl0_eval base cfg hal hsz 0 (by norm_num)
  have h1 := setup_lvl0_eval base cfg hal hsz 1 (by norm_num)
  rw [h0, h1]
  unfold tableAddr descType ttlb_lvl1_addr
  refine ⟨by omega, by omega, by omega, by omega⟩

/-- Closed instance of `lvl0_table_descriptors` at base 65536. -/
theorem lvl0_table_descriptors_witness :
    tableAddr ((setup_page_tables 65536 MMU_CFG_init).ttlb_lvl0 0)
        = ttlb_lvl1_addr 65536 0
    ∧ descType ((setup_page_tables 65536 MMU_CFG_init).ttlb_lvl0 0) = 0b11
    ∧ tableAddr ((setup_page_tables 65536 MMU_CFG_init).ttlb_lvl0 1)
        = ttlb_lvl1_addr 65536 512
    ∧ descType ((setup_page_tables 65536 MMU_CFG_init).ttlb_lvl0 1) = 0b11 :=
  lvl0_table_descriptors 65536 MMU_CFG_init (by norm_num) (by norm_num)

/-- C10: `setup_page_tables` writes only level-0 indices 0 and 1, so
starting from the zero-initialized `MMU_CFG` every level-0 entry with
index in [2, 512) still holds the invalid descriptor 0 afterwards. -/
theorem lvl0_upper_invalid (base : ℕ) (i : ℕ) (h2 : 2 ≤ i)
    (h512 : i < 512) :
    (setup_page_tables base MMU_CFG_init).ttlb_lvl0 i = 0 := by
  unfold setup_page_tables MMU_CFG_init
  simp only
  rw [if_neg (by omega), if_neg (by omega)]

/-- Closed instance of `lvl0_upper_invalid` at index 5. -/
theorem lvl0_upper_invalid_witness :
    (setup_page_tables 65536 MMU_CFG_init).ttlb_lvl0 5 = 0 :=
  lvl0_upper_invalid 65536 5 (by norm_num) (by norm_num)

/-- C6: `disable_mmu` is idempotent on the modelled machine state: the
second call writes the same full `sctlr_el2` value again and touches
nothing else. -/
theorem disable_mmu_idempotent (m : Machine) :
    disable_mmu (disable_mmu m) = disable_mmu m := rfl

/-- C8: on a core other than the designated core 0, `initialize_mmu`
leaves the whole translation-table region unchanged: table construction
is guarded by `core == 0` and the register writes do not touch it. -/
theorem initialize_mmu_other_core_tables (base core : ℕ) (m : Machine)
    (hc : core ≠ 0) :
    (initialize_mmu base core m).cfg = m.cfg := by
  unfold initialize_mmu disable_mmu
  simp [hc]

/-- Closed instance of `initialize_mmu_other_core_tables` on core 1. -/
theorem initialize_mmu_other_core_tables_witness :
    (initialize_mmu 65536 1
        { cfg := MMU_CFG_init
          regs :=
            { sctlr_el2 := sctlr_disable_value
              mair_el2 := mair_write_value
              ttbr0_el2 := 0
              tcr_el2 := tcr_write_value
              hcr_el2 := hcr_write_value } }).cfg = MMU_CFG_init :=
  initialize_mmu_other_core_tables 65536 1
    { cfg := MMU_CFG_init
      regs :=
        { sctlr_el2 := sctlr_disable_value
          mair_el2 := mair_write_value
          ttbr0_el2 := 0
          tcr_el2 := tcr_write_value
          hcr_el2 := hcr_write_value } } (by norm_num)

/-- C7: running `initialize_mmu` on core 0, then `disable_mmu`, then
`initialize_mmu` on core 0 again leaves the translation-table region
exactly as after the first run: the rebuild writes identical
descriptors, so the tables are not corrupted. -/
theorem initialize_mmu_round_trip_tables (base : ℕ) (m : Machine) :
    (initialize_mmu base 0 (disable_mmu (initialize_mmu base 0 m))).cfg
      = (initialize_mmu base 0 m).cfg := by
  have key : ∀ cfg : MmuConfig,
      setup_page_tables base (setup_page_tables base cfg)
        = setup_page_tables base cfg := by
    intro cfg
    unfold setup_page_tables
    ext i <;> simp only <;> split_ifs <;> rfl
  unfold initialize_mmu disable_mmu
  simp [key]

/-- C9: `disable_mmu` performs, in program order, exactly one
`sctlr_el2` write whose value clears M (translation), C (data cache) and
I (instruction cache) together, then the two settle nops, then a data
synchronization barrier followed by an instruction synchronization
barrier. -/
theorem disable_mmu_trace_order :
    disable_mmu_trace
      = [Ev.wSctlr sctlr_disable_value, Ev.nop, Ev.nop, Ev.dsb, Ev.isb]
    ∧ List.countP (fun e => isSctlrWrite e) disable_mmu_trace = 1
    ∧ sctlr_disable_value.M = false
    ∧ sctlr_disable_value.C = false
    ∧ sctlr_disable_value.I = false :=
  ⟨rfl, rfl, rfl, rfl, rfl⟩

/-- C5: in the register-write trace of `initialize_mmu`, for any core,
every `sctlr_el2` write that sets the translation-enable bit M is
preceded by the `mair_el2` write and by the `tcr_el2` write. -/
theorem mair_tcr_before_enable (base core j : ℕ)
    (hj : j < (initialize_mmu_trace base core).length)
    (hEn : isEnablingSctlrWrite
        ((initialize_mmu_trace base core).getD j Ev.nop) = true) :
    (∃ i, i < j
        ∧ isMairWrite ((initialize_mmu_trace base core).getD i Ev.nop) = true)
    ∧ (∃ i, i < j
        ∧ isTcrWrite ((initialize_mmu_trace base core).getD i Ev.nop) = true) := by
  by_cases hc : core = 0
  · subst hc
    have htr : initialize_mmu_trace base 0
        = [Ev.wSctlr sctlr_disable_value, Ev.nop, Ev.nop, Ev.dsb, Ev.isb,
           Ev.dsb, Ev.tlbi, Ev.wMair mair_write_value,
           Ev.wTtbr0 (ttlb_lvl0_addr base 0), Ev.wTcr tcr_write_value,
           Ev.wHcr hcr_write_value, Ev.wSctlr sctlr_enable_value,
           Ev.nop, Ev.nop] := rfl
    rw [htr] at hj hEn ⊢
    simp only [List.length_cons, List.length_nil] at hj
    interval_cases j <;>
      first
        | exact (Bool.false_ne_true hEn).elim
        | exact ⟨⟨7, by omega, rfl⟩, ⟨9, by omega, rfl⟩⟩
  · have htr : initialize_mmu_trace base core
        = [Ev.wSctlr sctlr_disable_value, Ev.nop, Ev.nop, Ev.dsb, Ev.isb,
           Ev.wMair mair_write_value, Ev.wTtbr0 (ttlb_lvl0_addr base 0),
           Ev.wTcr tcr_write_value, Ev.wHcr hcr_write_value,
           Ev.wSctlr sctlr_enable_value, Ev.nop, Ev.nop] := by
      unfold initialize_mmu_trace
      rw [if_neg hc]
      rfl
    rw [htr] at hj hEn ⊢
    simp only [List.length_cons, List.length_nil] at hj
    interval_cases j <;>
      first
        | exact (Bool.false_ne_true hEn).elim
        | exact ⟨⟨5, by omega, rfl⟩, ⟨7, by omega, rfl⟩⟩

/-- Closed instance of `mair_tcr_before_enable`: on core 0 the enabling
`sctlr_el2` write sits at trace index 11, after the `mair_el2` and
`tcr_el2` writes. -/
theorem mair_tcr_before_enable_witness :
    (∃ i, i < 11
        ∧ isMairWrite ((initialize_mmu_trace 0 0).getD i Ev.nop) = true)
    ∧ (∃ i, i < 11
        ∧ isTcrWrite ((initialize_mmu_trace 0 0).getD i Ev.nop) = true) :=
  mair_tcr_before_enable 0 0 11 (by decide) (by decide)

set_option maxRecDepth 2048 in
/-- C1: after `setup_page_tables`, the two-level walk over the `MMU_CFG`
tables maps every address below 0x4020_0000 to itself (identity
mapping), yielding exactly one output; addresses at and above
0x4000_0000 resolve through level-0 entry 1 into `ttlb_lvl1[512]`. The
hypotheses state what the source guarantees about the static region:
4096-byte alignment (`#[repr(align(4096))]`) and placement inside the
48-bit physical address space. -/
theorem walk_identity (base va : ℕ) (cfg : MmuConfig)
    (hal : base % 4096 = 0) (hsz : base + 12288 < 2 ^ 48)
    (hva : va < 0x40200000) :
    walk base (setup_page_tables base cfg) va = some va := by
  simp only [walk]
  by_cases hA : va < 2 ^ 30
  · have hi0 : va / 2 ^ 30 % 2 ^ 9 = 0 := by omega
    rw [hi0]
    have hfetch0 : memAt base (setup_page_tables base cfg) (base + 8 * 0)
        = (setup_page_tables base cfg).ttlb_lvl0 0 := by
      unfold memAt
      have hc : base ≤ base + 8 * 0 ∧ base + 8 * 0 < base + 8 * 512 := by
        constructor <;> omega
      simp only [if_pos hc]
      have harg : (base + 8 * 0 - base) / 8 = 0 := by omega
      rw [harg]
    rw [hfetch0]
    rw [setup_lvl0_eval base cfg hal hsz 0 (by norm_num)]
    rw [if_pos (show descType (2 ^ 63 + (base + 4096 + 4096 * 0) + 3) = 0b11 by
      unfold descType; omega)]
    have hta : tableAddr (2 ^ 63 + (base + 4096 + 4096 * 0) + 3)
        = base + 4096 := by
      unfold tableAddr
      omega
    rw [hta]
    have hi1 : va / 2 ^ 21 % 2 ^ 9 = va / 2 ^ 21 := by omega
    rw [hi1]
    have hfetch1 : memAt base (setup_page_tables base cfg)
        (base + 4096 + 8 * (va / 2 ^ 21))
        = (setup_page_tables base cfg).ttlb_lvl1 (va / 2 ^ 21) := by
      unfold memAt
      have hc1 : ¬(base ≤ base + 4096 + 8 * (va / 2 ^ 21)
          ∧ base + 4096 + 8 * (va / 2 ^ 21) < base + 8 * 512) := by omega
      have hc2 : base + 8 * 512 ≤ base + 4096 + 8 * (va / 2 ^ 21)
          ∧ base + 4096 + 8 * (va / 2 ^ 21) < base + 8 * 512 + 8 * 513 := by
        constructor <;> omega
      simp only [if_neg hc1, if_pos hc2]
      have harg : (base + 4096 + 8 * (va / 2 ^ 21) - (base + 8 * 512)) / 8
          = va / 2 ^ 21 := by omega
      rw [harg]
    rw [hfetch1]
    rw [setup_lvl1_eval base cfg (va / 2 ^ 21) (by omega)]
    by_cases hn : va / 2 ^ 21 < 504
    · rw [if_pos hn]
      rw [if_pos (show descType (va / 2 ^ 21 * 0x200000 + 0x711) = 0b01 by
        unfold descType; omega)]
      have hout : blockAddr (va / 2 ^ 21 * 0x200000 + 0x711) + va % 2 ^ 21
          = va := by
        unfold blockAddr
        omega
      rw [hout]
    · rw [if_neg hn]
      rw [if_pos (show descType (va / 2 ^ 21 * 0x200000 + 0x401) = 0b01 by
        unfold descType; omega)]
      have hout : blockAddr (va / 2 ^ 21 * 0x200000 + 0x401) + va % 2 ^ 21
          = va := by
        unfold blockAddr
        omega
      rw [hout]
  · have hi0 : va / 2 ^ 30 % 2 ^ 9 = 1 := by omega
    rw [hi0]
    have hfetch0 : memAt base (setup_page_tables base cfg) (base + 8 * 1)
        = (setup_page_tables base cfg).ttlb_lvl0 1 := by
      unfold memAt
      have hc : base ≤ base + 8 * 1 ∧ base + 8 * 1 < base + 8 * 512 := by
        constructor <;> omega
      simp only [if_pos hc]
      have harg : (base + 8 * 1 - base) / 8 = 1 := by omega
      rw [harg]
    rw [hfetch0]
    rw [setup_lvl0_eval base cfg hal hsz 1 (by norm_num)]
    rw [if_pos (show descType (2 ^ 63 + (base + 4096 + 4096 * 1) + 3) = 0b11 by
      unfold descType; omega)]
    have hta : tableAddr (2 ^ 63 + (base + 4096 + 4096 * 1) + 3)
        = base + 8192 := by
      unfold tableAddr
      omega
    rw [hta]
    have hi1 : va / 2 ^ 21 % 2 ^ 9 = 0 := by omega
    rw [hi1]
    have hfetch1 : memAt base (setup_page_tables base cfg) (base + 8192 + 8 * 0)
        = (setup_page_tables base cfg).ttlb_lvl1 512 := by
      unfold memAt
      have hc1 : ¬(base ≤ base + 8192 + 8 * 0
          ∧ base + 8192 + 8 * 0 < base + 8 * 512) := by omega
      have hc2 : base + 8 * 512 ≤ base + 8192 + 8 * 0
          ∧ base + 8192 + 8 * 0 < base + 8 * 512 + 8 * 513 := by
        constructor <;> omega
      simp only [if_neg hc1, if_pos hc2]
      have harg : (base + 8192 + 8 * 0 - (base + 8 * 512)) / 8 = 512 := by
        omega
      rw [harg]
    rw [hfetch1]
    have hd1 := setup_lvl1_eval base cfg 512 (by norm_num)
    rw [if_neg (by norm_num)] at hd1
    rw [hd1]
    rw [if_pos (show descType (512 * 0x200000 + 0x401) = 0b01 by
      unfold descType; omega)]
    have hout : blockAddr (512 * 0x200000 + 0x401) + va % 2 ^ 21 = va := by
      unfold blockAddr
      omega
    rw [hout]

/-- Closed instance of `walk_identity` for an address above 0x4000_0000,
resolved through level-0 entry 1 and `ttlb_lvl1[512]`. -/
theorem walk_identity_witness :
    walk 65536 (setup_page_tables 65536 MMU_CFG_init) 0x40123456
      = some 0x40123456 :=
  walk_identity 65536 0x40123456 MMU_CFG_init (by norm_num) (by norm_num)
    (by norm_num)

end Mmu
